import Mathlib

/-
  A shallow embedding of the WASM Game of Life engine (`src/lib.rs` of
  chavicoski/WASM-Game-Of-Life), together with proofs relating it to the
  natural-language specification.

  Modelling conventions
  =====================
  * `fixedbitset::FixedBitSet` is modelled as `List Bool` (one entry per cell,
    `true` = alive).  `FixedBitSet::with_capacity n` is `List.replicate n false`;
    `set` / `insert` / `toggle` change one entry (in Rust these abort the
    process on an out-of-bounds index, while `List.set` is a no-op there;
    theorems either carry the bounds needed to stay in range, or exhibit the
    out-of-bounds access explicitly via `Universe.set_width_oob`); `clear`
    zeroes every entry keeping the length; `grow n` appends zeroed entries up
    to length `n` (no-op when already at least that long); indexing reads
    (`cells[idx]`, via `FixedBitSet`'s `Index` instance, which goes through
    `contains`) return `false` out of range, hence `List.getD _ _ false`.
  * `dubble::DoubleBuffered<FixedBitSet>` is a pair of buffers.  `Deref`
    (all reads: the indexing in `live_neighbor_count` and `tick`) goes to the
    read buffer, `DerefMut` (all writes: `set`, `insert`, `toggle`, `clear`,
    `grow`) goes to the write buffer, and `update` commits the write buffer by
    cloning it onto the read buffer.  `DoubleBuffered::new v` starts with both
    buffers equal to `v`.  `upsert v` replaces the write buffer by `v`
    (it is immediately followed by a full `reset` in the source, so only the
    length of the replacement is ever observable).
  * `js_sys::Math::random() < 0.5` (used only by `reset`) is modelled by an
    abstract Boolean stream `r : Nat → Bool`: iteration `i` of the reset loop
    stores `r i`.  Every operation that reaches `reset` takes the stream as an
    explicit argument.  `utils::set_panic_hook` is a host-environment hook with
    no effect on the grid state and is not modelled.
  * `u32` arithmetic wraps modulo `U32 = 2 ^ 32` (`size`, `get_index`); the
    `as i32` casts in `create_figure` are modelled by `toI32`, and
    `i32::rem_euclid` by `%` on `Int` (which is the Euclidean `Int.emod` and
    agrees with `rem_euclid` on every modulus that is representable and
    positive).
-/

namespace GOL

/-- The constant `2 ^ 32`, the modulus of `u32` arithmetic. -/
def U32 : Nat := 4294967296

/-- The constant `2 ^ 31`, the first `u32` value that becomes negative when cast to `i32`. -/
def I31 : Nat := 2147483648

/-- Semantics of `n as i32` applied to the `u32` value `n` (two's-complement reinterpretation). -/
def toI32 (n : Nat) : Int :=
  if n % U32 < I31 then ((n % U32 : Nat) : Int) else ((n % U32 : Nat) : Int) - (U32 : Int)

/-- Spec-side toroidal wrap: the Euclidean remainder of `x` modulo `m`, as a `Nat`.
This is the "(row + offset) mod height with Euclidean (always-non-negative)
modulo" of the specification. -/
def eWrap (m : Nat) (x : Int) : Nat := (x % (m : Int)).toNat

/-- The loop `loopN f n a` runs `a := f i a` for `i = 0, 1, ..., n - 1`: a Rust
`for i in 0..n` loop whose body transforms state of type `α`. -/
def loopN {α : Type} (f : Nat → α → α) : Nat → α → α
  | 0, a => a
  | n + 1, a => f n (loopN f n a)

/-- Canonical form of a loop that stores `f i` at index `i` for `i = 0, ..., n - 1`
of a Boolean buffer.  Used to give closed forms to the `reset` and `tick` loops. -/
def writeSeq (f : Nat → Bool) : Nat → List Bool → List Bool
  | 0, l => l
  | n + 1, l => (writeSeq f n l).set n (f n)

/-- The two buffers of `dubble::DoubleBuffered<FixedBitSet>`.  All reads go to
`read`, all writes to `write`; `update` publishes `write` by cloning it onto
`read`. -/
structure DoubleBuffered where
  read : List Bool
  write : List Bool
deriving DecidableEq

namespace DoubleBuffered

/-- Model of `DoubleBuffered::new(value)`: both buffers start equal to `value`. -/
def new (v : List Bool) : DoubleBuffered := ⟨v, v⟩

/-- Model of `self.cells[i]` (read buffer via `Deref`, `FixedBitSet::Index` via `contains`). -/
def get (db : DoubleBuffered) (i : Nat) : Bool := db.read.getD i false

/-- Model of `self.cells.set(i, b)` (write buffer via `DerefMut`). -/
def set (db : DoubleBuffered) (i : Nat) (b : Bool) : DoubleBuffered :=
  { db with write := db.write.set i b }

/-- Model of `self.cells.toggle(i)` (write buffer via `DerefMut`). -/
def toggle (db : DoubleBuffered) (i : Nat) : DoubleBuffered :=
  { db with write := db.write.set i (!(db.write.getD i false)) }

/-- Model of `self.cells.insert(i)` (write buffer via `DerefMut`): set bit `i` to alive. -/
def insert (db : DoubleBuffered) (i : Nat) : DoubleBuffered :=
  { db with write := db.write.set i true }

/-- Model of `self.cells.clear()` (write buffer via `DerefMut`): all bits dead, length kept. -/
def clear (db : DoubleBuffered) : DoubleBuffered :=
  { db with write := db.write.map (fun _ => false) }

/-- Model of `self.cells.grow(n)` (write buffer via `DerefMut`): zero-extend to length `n`. -/
def grow (db : DoubleBuffered) (n : Nat) : DoubleBuffered :=
  { db with write := db.write ++ List.replicate (n - db.write.length) false }

/-- Model of `self.cells.upsert(v)`: replace the write buffer by `v`. -/
def upsert (db : DoubleBuffered) (v : List Bool) : DoubleBuffered :=
  { db with write := v }

/-- Model of `self.cells.update()`: commit, cloning the write buffer onto the read buffer. -/
def update (db : DoubleBuffered) : DoubleBuffered :=
  { db with read := db.write }

end DoubleBuffered

/-- The source's `const GLIDER: [i32; 10]` — flat `[row, col, row, col, ...]` offset list. -/
def GLIDER : List Int := [0, -2, 0, -1, 0, 0, -1, 0, -2, -1]

/-- The source's `const PULSAR: [i32; 96]` — flat `[row, col, row, col, ...]` offset list. -/
def PULSAR : List Int :=
  [6, -4, 6, -3, 6, -2, 6, 2, 6, 3, 6, 4, 4, -6, 4, -1, 4, 1, 4, 6, 3, -6, 3, -1, 3, 1, 3, 6, 2,
   -6, 2, -1, 2, 1, 2, 6, 1, -4, 1, -3, 1, -2, 1, 2, 1, 3, 1, 4, -6, -4, -6, -3, -6, -2, -6, 2,
   -6, 3, -6, 4, -4, -6, -4, -1, -4, 1, -4, 6, -3, -6, -3, -1, -3, 1, -3, 6, -2, -6, -2, -1, -2,
   1, -2, 6, -1, -4, -1, -3, -1, -2, -1, 2, -1, 3, -1, 4]

/-- Model of `pub struct Universe` — width, height, double-buffered cells, ticks per update. -/
structure Universe where
  width : Nat
  height : Nat
  cells : DoubleBuffered
  n_ticks : Nat
deriving DecidableEq

/-- Body of `Universe::live_neighbor_count`, factored over the data it actually
reads: the width `w`, the height `h` and the read buffer `rd` (every `cells[_]`
indexing goes through `Deref`, i.e. the read buffer; the write buffer is never
consulted).  `north`/`south`/`west`/`east` and the eight `count +=` additions
mirror the source line by line (`count` is a `u8` that stays ≤ 8, so its
arithmetic never wraps); the `(… % U32)` is the `u32` arithmetic of
`get_index`. -/
def lncPure (w h : Nat) (rd : List Bool) (row col : Nat) : Nat :=
  let north := if row = 0 then h - 1 else row - 1
  let south := if row = h - 1 then 0 else row + 1
  let west := if col = 0 then w - 1 else col - 1
  let east := if col = w - 1 then 0 else col + 1
  0 + (rd.getD ((north * w + west) % U32) false).toNat
    + (rd.getD ((north * w + col) % U32) false).toNat
    + (rd.getD ((north * w + east) % U32) false).toNat
    + (rd.getD ((row * w + west) % U32) false).toNat
    + (rd.getD ((row * w + east) % U32) false).toNat
    + (rd.getD ((south * w + west) % U32) false).toNat
    + (rd.getD ((south * w + col) % U32) false).toNat
    + (rd.getD ((south * w + east) % U32) false).toNat

/-- The `match (cell, live_neighbors)` expression inside `Universe::tick`,
with its guards replayed in order. -/
def nextCell (cell : Bool) (x : Nat) : Bool :=
  if cell = true ∧ x < 2 then false
  else if cell = true ∧ (x = 2 ∨ x = 3) then true
  else if cell = true ∧ 3 < x then false
  else if cell = false ∧ x = 3 then true
  else cell

namespace Universe

/-- Model of `pub fn size(&self) -> usize` = `(self.width * self.height) as usize`. -/
def size (u : Universe) : Nat := (u.width * u.height) % U32

/-- Model of `fn get_index(&self, row, column) -> usize` = `(row * self.width + column) as usize`. -/
def get_index (u : Universe) (row column : Nat) : Nat := (row * u.width + column) % U32

/-- Model of `fn live_neighbor_count(&self, row, column) -> u8` (see `lncPure`). -/
def live_neighbor_count (u : Universe) (row column : Nat) : Nat :=
  lncPure u.width u.height u.cells.read row column

/-- Model of `pub fn reset(&mut self)`: `for i in 0..self.size() { self.cells.set(i, random() < 0.5) }`
followed by `self.cells.update()`.  The random draws are the stream `r`. -/
def reset (u : Universe) (r : Nat → Bool) : Universe :=
  let db := loopN (fun i db => db.set i (r i)) u.size u.cells
  { u with cells := db.update }

/-- Model of `pub fn new(width, height) -> Universe`: zeroed bit array of `width * height`
bits in both buffers, `n_ticks = 1`, then an immediate random `reset`. -/
def new (width height : Nat) (r : Nat → Bool) : Universe :=
  let size := (width * height) % U32
  let cells := DoubleBuffered.new (List.replicate size false)
  Universe.reset { width := width, height := height, cells := cells, n_ticks := 1 } r

/-- Model of `pub fn clear(&mut self)`: `self.cells.clear(); self.cells.update();`. -/
def clear (u : Universe) : Universe := { u with cells := u.cells.clear.update }

/-- Model of `pub fn set_ticks(&mut self, ticks)`. -/
def set_ticks (u : Universe) (ticks : Nat) : Universe := { u with n_ticks := ticks }

/-- Model of `fn reset_with_size(&mut self, new_size)`: the `match new_size.cmp(&curr_size)`
(`Greater` → `grow`, `Less` → `upsert` a fresh zeroed bitset, `Equal` → nothing)
followed unconditionally by `self.reset()`. -/
def reset_with_size (u : Universe) (new_size : Nat) (r : Nat → Bool) : Universe :=
  let curr_size := u.size
  let u' :=
    if curr_size < new_size then { u with cells := u.cells.grow new_size }
    else if new_size < curr_size then
      { u with cells := u.cells.upsert (List.replicate new_size false) }
    else u
  u'.reset r

/-- Model of `pub fn set_width(&mut self, width)`: `self.width = width;` first, then
`reset_with_size((width * self.height) as usize)`. -/
def set_width (u : Universe) (width : Nat) (r : Nat → Bool) : Universe :=
  let u' := { u with width := width }
  u'.reset_with_size ((width * u'.height) % U32) r

/-- Model of `pub fn set_height(&mut self, height)`: `self.height = height;` first, then
`reset_with_size((self.width * height) as usize)`. -/
def set_height (u : Universe) (height : Nat) (r : Nat → Bool) : Universe :=
  let u' := { u with height := height }
  u'.reset_with_size ((u'.width * height) % U32) r

/-- One inner-loop iteration of `Universe::tick` at `(row, col)`: read the cell
and its neighbor count from the read buffer, store the rule's output in the
write buffer. -/
def tickCell (u : Universe) (row col : Nat) : Universe :=
  let idx := u.get_index row col
  let cell := u.cells.get idx
  let live_neighbors := u.live_neighbor_count row col
  { u with cells := u.cells.set idx (nextCell cell live_neighbors) }

/-- Model of `pub fn tick(&mut self)`: the nested `for row in 0..self.height
{ for col in 0..self.width { ... } }` scan followed by `self.cells.update()`.
`width` and `height` are never written inside the loop, so the bounds read from
`self` at every iteration equal `u.width` / `u.height`. -/
def tick (u : Universe) : Universe :=
  let v := loopN (fun row v => loopN (fun col v => v.tickCell row col) u.width v) u.height u
  { v with cells := v.cells.update }

/-- Model of `pub fn update(&mut self)`: `for _ in 0..self.n_ticks { self.tick(); }`. -/
def update (u : Universe) : Universe := loopN (fun _ v => v.tick) u.n_ticks u

/-- Model of `pub fn toggle_cell(&mut self, row, column)`: toggle one bit, then commit. -/
def toggle_cell (u : Universe) (row column : Nat) : Universe :=
  let idx := u.get_index row column
  { u with cells := (u.cells.toggle idx).update }

/-- Model of `fn create_figure(&mut self, coords, row, column)`: for each offset pair,
wrap with `rem_euclid` after `as i32` casts, and `insert` (set alive) the
corresponding bit of the write buffer; one final commit. -/
def create_figure (u : Universe) (coords : List Int) (row column : Nat) : Universe :=
  let n_cells := coords.length / 2
  let db := loopN (fun i db =>
    let aux_row := ((toI32 row + coords.getD (i * 2) 0) % toI32 u.height).toNat
    let aux_col := ((toI32 column + coords.getD (i * 2 + 1) 0) % toI32 u.width).toNat
    db.insert (u.get_index aux_row aux_col)) n_cells u.cells
  { u with cells := db.update }

/-- Model of `pub fn create_glider(&mut self, row, column)`. -/
def create_glider (u : Universe) (row column : Nat) : Universe :=
  u.create_figure GLIDER row column

/-- Model of `pub fn create_pulsar(&mut self, row, column)`. -/
def create_pulsar (u : Universe) (row column : Nat) : Universe :=
  u.create_figure PULSAR row column

/-- Model of `pub fn set_cells(&mut self, cells)`: bulk-set the listed `(row, col)` pairs
alive in the write buffer, then commit. -/
def set_cells (u : Universe) (cs : List (Nat × Nat)) : Universe :=
  let db := cs.foldl (fun db rc => db.set (u.get_index rc.1 rc.2) true) u.cells
  { u with cells := db.update }

/-- Model of `impl Default for Universe`: `Self::new(100, 100)`. -/
def default (r : Nat → Bool) : Universe := Universe.new 100 100 r

/-- The externally visible value of cell `(row, column)`: the read buffer at the
row-major index. -/
def cellAt (u : Universe) (row column : Nat) : Bool := u.cells.get (u.get_index row column)

/-- The two buffers hold equal contents (the double-buffering rest invariant). -/
def Synced (u : Universe) : Prop := u.cells.read = u.cells.write

/-- When `set_width`/`set_height` is called, `reset_with_size` compares
`new_size` against `self.size()` *after* the dimension field was already
updated, so the two are always equal, the `Equal` branch runs, the buffers are
never resized, and the subsequent `reset` calls `FixedBitSet::set(i, _)` for
every `i < self.size()`.  This predicate says that such a call reaches an index
past the end of the write buffer — in Rust, `FixedBitSet::set` aborts the
process there. -/
def set_width_oob (u : Universe) (width : Nat) : Prop :=
  ({ u with width := width } : Universe).cells.write.length
    < ({ u with width := width } : Universe).size

end Universe

/-- Spec-side B3/S23 transition rule, read off the claim: alive with fewer than
2 live neighbors dies, alive with 2 or 3 survives, alive with more than 3 dies,
dead with exactly 3 becomes alive, every other cell is unchanged. -/
def lifeRule (alive : Bool) (live : Nat) : Bool :=
  if alive = true ∧ live < 2 then false
  else if alive = true ∧ (live = 2 ∨ live = 3) then true
  else if alive = true ∧ 3 < live then false
  else if alive = false ∧ live = 3 then true
  else alive

/-- Spec-side toroidal live-neighbor count: the eight Moore neighbors of
`(row, col)`, rows wrapped modulo the height and columns modulo the width
(Euclidean modulo), each contributing 1 when alive in the pre-tick state. -/
def specNeighborCount (u : Universe) (row col : Nat) : Nat :=
  (u.cellAt (eWrap u.height ((row : Int) - 1)) (eWrap u.width ((col : Int) - 1))).toNat
  + (u.cellAt (eWrap u.height ((row : Int) - 1)) (eWrap u.width (col : Int))).toNat
  + (u.cellAt (eWrap u.height ((row : Int) - 1)) (eWrap u.width ((col : Int) + 1))).toNat
  + (u.cellAt (eWrap u.height (row : Int)) (eWrap u.width ((col : Int) - 1))).toNat
  + (u.cellAt (eWrap u.height (row : Int)) (eWrap u.width ((col : Int) + 1))).toNat
  + (u.cellAt (eWrap u.height ((row : Int) + 1)) (eWrap u.width ((col : Int) - 1))).toNat
  + (u.cellAt (eWrap u.height ((row : Int) + 1)) (eWrap u.width (col : Int))).toNat
  + (u.cellAt (eWrap u.height ((row : Int) + 1)) (eWrap u.width ((col : Int) + 1))).toNat

/-- Spec-side glider stamp: the five glider-offset cells, anchor-relative with
Euclidean-modulo toroidal wrap, in the order of the `GLIDER` constant. -/
def gliderCells (u : Universe) (row col : Nat) : List (Nat × Nat) :=
  [(eWrap u.height (row : Int), eWrap u.width ((col : Int) - 2)),
   (eWrap u.height (row : Int), eWrap u.width ((col : Int) - 1)),
   (eWrap u.height (row : Int), eWrap u.width (col : Int)),
   (eWrap u.height ((row : Int) - 1), eWrap u.width (col : Int)),
   (eWrap u.height ((row : Int) - 2), eWrap u.width ((col : Int) - 1))]

/-- Per-index value written by the `tick` scan: the rule applied to the read
buffer's cell at flat index `k = row * w + col` and its neighbor count. -/
def gPure (w h : Nat) (rd : List Bool) (k : Nat) : Bool :=
  nextCell (rd.getD k false) (lncPure w h rd (k / w) (k % w))

/-- The all-false random stream (every `Math.random()` draw ≥ 0.5). -/
def rF : Nat → Bool := fun _ => false

/-- The all-true random stream (every `Math.random()` draw < 0.5). -/
def rT : Nat → Bool := fun _ => true

/-- A concrete synchronized 2×2 universe, all cells dead. -/
def u22 : Universe :=
  ⟨2, 2, ⟨[false, false, false, false], [false, false, false, false]⟩, 1⟩

/-- A concrete synchronized 2×2 universe with one alive cell at `(1, 1)`. -/
def u22a : Universe :=
  ⟨2, 2, ⟨[false, false, false, true], [false, false, false, true]⟩, 1⟩

/-- A concrete synchronized 3×3 universe holding a horizontal blinker in row 1. -/
def u33b : Universe :=
  ⟨3, 3, ⟨[false, false, false, true, true, true, false, false, false],
          [false, false, false, true, true, true, false, false, false]⟩, 1⟩

/-- A concrete synchronized 3×3 universe, all cells dead. -/
def u33 : Universe :=
  ⟨3, 3, ⟨List.replicate 9 false, List.replicate 9 false⟩, 1⟩

end GOL

namespace GOL

/-- Reading back a freshly set entry (in-range index). -/
theorem getD_set_self {α : Type} (l : List α) (i : Nat) (b d : α) (h : i < l.length) :
    (l.set i b).getD i d = b := by
  induction l generalizing i with
  | nil => simp at h
  | cons x xs ih =>
    cases i with
    | zero => rfl
    | succ n => simpa using ih n (by simpa using h)

/-- Setting one entry does not change the others. -/
theorem getD_set_ne {α : Type} (l : List α) (i j : Nat) (b d : α) (h : i ≠ j) :
    (l.set i b).getD j d = l.getD j d := by
  induction l generalizing i j with
  | nil => rfl
  | cons x xs ih =>
    cases i with
    | zero =>
      cases j with
      | zero => exact absurd rfl h
      | succ m => rfl
    | succ n =>
      cases j with
      | zero => rfl
      | succ m => simpa using ih n m (by omega)

/-- Setting an entry to the value it already has is the identity. -/
theorem set_getD_self {α : Type} (l : List α) (i : Nat) (d : α) :
    l.set i (l.getD i d) = l := by
  induction l generalizing i with
  | nil => rfl
  | cons x xs ih =>
    cases i with
    | zero => rfl
    | succ n => simpa using ih n

/-- Setting a bit alive, read back anywhere (in-range target index). -/
theorem getD_set_true (l : List Bool) (k j : Nat) (hk : k < l.length) :
    (l.set k true).getD j false = (l.getD j false || decide (j = k)) := by
  by_cases h : j = k
  · subst h
    rw [getD_set_self l j true false hk]
    simp
  · rw [getD_set_ne l k j true false (by omega)]
    simp [h]

theorem length_writeSeq (f : Nat → Bool) (n : Nat) (l : List Bool) :
    (writeSeq f n l).length = l.length := by
  induction n with
  | zero => rfl
  | succ m ih => simp [writeSeq, ih]

theorem getD_writeSeq (f : Nat → Bool) (n : Nat) (l : List Bool) (j : Nat)
    (hj : j < l.length) :
    (writeSeq f n l).getD j false = if j < n then f j else l.getD j false := by
  induction n with
  | zero => simp [writeSeq]
  | succ m ih =>
    by_cases h : j = m
    · subst h
      rw [writeSeq, getD_set_self _ _ _ _ (by rw [length_writeSeq]; exact hj)]
      simp
    · rw [writeSeq, getD_set_ne _ _ _ _ _ (by omega), ih]
      by_cases h2 : j < m
      · rw [if_pos h2, if_pos (by omega)]
      · rw [if_neg h2, if_neg (by omega)]

theorem loopN_congr {α : Type} (f g : Nat → α → α) (n : Nat) (a : α)
    (h : ∀ i b, i < n → f i b = g i b) : loopN f n a = loopN g n a := by
  induction n with
  | zero => rfl
  | succ m ih =>
    rw [loopN, loopN, ih (fun i b hi => h i b (by omega)), h m _ (by omega)]

theorem loopN_const {α : Type} (f : α → α) (n : Nat) (a : α) :
    loopN (fun _ b => f b) n a = f^[n] a := by
  induction n with
  | zero => rfl
  | succ m ih => rw [loopN, ih, Function.iterate_succ_apply']

/-- Splitting `row * w + c` back into its row and column (for `c < w`). -/
theorem index_div (w r c : Nat) (hc : c < w) : (r * w + c) / w = r := by
  rw [Nat.mul_comm r w, Nat.mul_add_div (by omega), Nat.div_eq_of_lt hc]
  omega

theorem index_mod (w r c : Nat) (hc : c < w) : (r * w + c) % w = c := by
  rw [Nat.mul_comm r w, Nat.mul_add_mod, Nat.mod_eq_of_lt hc]

/-- Row-major flat indices of valid positions stay below `w * h`. -/
theorem index_lt (w h r c : Nat) (hr : r < h) (hc : c < w) : r * w + c < w * h := by
  have h1 : r * w + c < (r + 1) * w := by
    rw [Nat.succ_mul]; omega
  have h2 : (r + 1) * w ≤ h * w := Nat.mul_le_mul_right w (by omega)
  rw [Nat.mul_comm w h]; omega

/-- Row-major flat indexing is injective on valid positions. -/
theorem index_inj (w r c r' c' : Nat) (hc : c < w) (hc' : c' < w) :
    r * w + c = r' * w + c' ↔ (r = r' ∧ c = c') := by
  constructor
  · intro h
    have h1 : (r * w + c) / w = (r' * w + c') / w := by rw [h]
    have h2 : (r * w + c) % w = (r' * w + c') % w := by rw [h]
    rw [index_div w r c hc, index_div w r' c' hc'] at h1
    rw [index_mod w r c hc, index_mod w r' c' hc'] at h2
    exact ⟨h1, h2⟩
  · rintro ⟨rfl, rfl⟩; rfl

end GOL

namespace GOL

/-- Wrapping `row - 1` is the source's `if row == 0 { height - 1 } else { row - 1 }`. -/
theorem eWrap_sub_one (h r : Nat) (hh : 0 < h) (hr : r < h) :
    eWrap h ((r : Int) - 1) = if r = 0 then h - 1 else r - 1 := by
  unfold eWrap
  cases r with
  | zero =>
    have e1 : ((0 : Nat) : Int) - 1 = ((h : Int) - 1) + (h : Int) * (-1) := by ring
    rw [if_pos rfl, e1, Int.add_mul_emod_self_left,
      Int.emod_eq_of_lt (by omega) (by omega)]
    omega
  | succ n =>
    rw [if_neg (by omega)]
    have e1 : ((n + 1 : Nat) : Int) - 1 = (n : Int) := by push_cast; ring
    rw [e1, Int.emod_eq_of_lt (by omega) (by omega)]
    omega

/-- Wrapping `row + 1` is the source's `if row == height - 1 { 0 } else { row + 1 }`. -/
theorem eWrap_add_one (h r : Nat) (hh : 0 < h) (hr : r < h) :
    eWrap h ((r : Int) + 1) = if r = h - 1 then 0 else r + 1 := by
  unfold eWrap
  by_cases he : r = h - 1
  · subst he
    have e1 : ((h - 1 : Nat) : Int) + 1 = 0 + (h : Int) * 1 := by push_cast [hh]; ring
    rw [if_pos rfl, e1, Int.add_mul_emod_self_left]
    simp
  · rw [if_neg he, Int.emod_eq_of_lt (by omega) (by omega)]
    omega

/-- An in-range coordinate is unchanged by wrapping. -/
theorem eWrap_id (h r : Nat) (hr : r < h) : eWrap h (r : Int) = r := by
  unfold eWrap
  rw [Int.emod_eq_of_lt (by omega) (by omega)]
  omega

/-- Wrapped coordinates are in range. -/
theorem eWrap_lt (h : Nat) (x : Int) (hh : 0 < h) : eWrap h x < h := by
  unfold eWrap
  have h1 : 0 ≤ x % (h : Int) := Int.emod_nonneg x (by omega)
  have h2 : x % (h : Int) < h := Int.emod_lt_of_pos x (by omega)
  omega

/-- Casting with `as i32` is the identity below `2 ^ 31`. -/
theorem toI32_of_lt (n : Nat) (hn : n < I31) : toI32 n = (n : Int) := by
  unfold toI32
  rw [Nat.mod_eq_of_lt (by unfold I31 U32 at *; omega), if_pos hn]

end GOL

namespace GOL

/-- One `tick` inner-loop step, unfolded on a fully destructured state: only
the write buffer changes, and the stored value is computed from the read
buffer alone. -/
theorem tickCell_eq (w h t : Nat) (rd Y : List Bool) (row col : Nat) :
    Universe.tickCell ⟨w, h, ⟨rd, Y⟩, t⟩ row col =
      ⟨w, h, ⟨rd, Y.set ((row * w + col) % U32)
        (nextCell (rd.getD ((row * w + col) % U32) false) (lncPure w h rd row col))⟩, t⟩ := rfl

/-- The `tick` column loop threads only the write buffer. -/
theorem tickInner_eq (w h t : Nat) (rd : List Bool) (row : Nat) (C : Nat) (X : List Bool) :
    loopN (fun col v => Universe.tickCell v row col) C ⟨w, h, ⟨rd, X⟩, t⟩ =
      ⟨w, h, ⟨rd, loopN (fun col Y => Y.set ((row * w + col) % U32)
        (nextCell (rd.getD ((row * w + col) % U32) false) (lncPure w h rd row col))) C X⟩, t⟩ := by
  induction C with
  | zero => rfl
  | succ m ih => rw [loopN, ih, loopN, tickCell_eq]

/-- The `tick` row loop threads only the write buffer. -/
theorem tickOuter_eq (w h t : Nat) (rd : List Bool) (R : Nat) (X : List Bool) :
    loopN (fun row v => loopN (fun col v => Universe.tickCell v row col) w v) R ⟨w, h, ⟨rd, X⟩, t⟩ =
      ⟨w, h, ⟨rd, loopN (fun row Y => loopN (fun col Y => Y.set ((row * w + col) % U32)
        (nextCell (rd.getD ((row * w + col) % U32) false) (lncPure w h rd row col))) w Y) R X⟩,
        t⟩ := by
  induction R with
  | zero => rfl
  | succ m ih => rw [loopN, ih, tickInner_eq, loopN]

/-- Columns `0, ..., C-1` of row `row` extend the canonical write sequence from
flat index `row * w` to `row * w + C`. -/
theorem rowChain_writeSeq (w h : Nat) (rd : List Bool) (row : Nat) (hrow : row < h)
    (hle : w * h ≤ U32) (X : List Bool) (C : Nat) (hC : C ≤ w) :
    loopN (fun col Y => Y.set ((row * w + col) % U32)
      (nextCell (rd.getD ((row * w + col) % U32) false) (lncPure w h rd row col))) C
      (writeSeq (gPure w h rd) (row * w) X) =
    writeSeq (gPure w h rd) (row * w + C) X := by
  induction C with
  | zero => rfl
  | succ m ih =>
    have hmw : m < w := by omega
    have hidx : row * w + m < U32 := lt_of_lt_of_le (index_lt w h row m hrow hmw) hle
    rw [loopN, ih (by omega), Nat.mod_eq_of_lt hidx]
    have hg : gPure w h rd (row * w + m) =
        nextCell (rd.getD (row * w + m) false) (lncPure w h rd row m) := by
      unfold gPure
      rw [index_div w row m hmw, index_mod w row m hmw]
    show _ = writeSeq (gPure w h rd) (row * w + m + 1) X
    rw [writeSeq, hg]

/-- Rows `0, ..., R-1` of the `tick` scan write the canonical sequence up to
flat index `R * w`. -/
theorem gridChain_writeSeq (w h : Nat) (rd : List Bool) (hle : w * h ≤ U32) (X : List Bool)
    (R : Nat) (hR : R ≤ h) :
    loopN (fun row Y => loopN (fun col Y => Y.set ((row * w + col) % U32)
      (nextCell (rd.getD ((row * w + col) % U32) false) (lncPure w h rd row col))) w Y) R X =
    writeSeq (gPure w h rd) (R * w) X := by
  induction R with
  | zero => rw [Nat.zero_mul]; rfl
  | succ m ih =>
    rw [loopN, ih (by omega), rowChain_writeSeq w h rd m (by omega) hle X w le_rfl]
    congr 1
    ring

/-- Closed form of `Universe::tick`: both buffers end up holding, at every flat
index below `h * w`, the transition rule applied to the pre-tick read buffer. -/
theorem tick_eq (w h t : Nat) (rd X : List Bool) (hle : w * h ≤ U32) :
    Universe.tick ⟨w, h, ⟨rd, X⟩, t⟩ =
      ⟨w, h, ⟨writeSeq (gPure w h rd) (h * w) X, writeSeq (gPure w h rd) (h * w) X⟩, t⟩ := by
  unfold Universe.tick
  dsimp only
  rw [tickOuter_eq, gridChain_writeSeq w h rd hle X h le_rfl]
  rfl

end GOL

namespace GOL

/-- The `match` in `tick` computes exactly the claim's B3/S23 rule. -/
theorem nextCell_eq_lifeRule (b : Bool) (n : Nat) : nextCell b n = lifeRule b n := rfl

/-- The source's branch-based neighbor lookup equals the spec's
Euclidean-modulo Moore-neighborhood count. -/
theorem lnc_eq_spec (w h t : Nat) (rd X : List Bool) (r c : Nat)
    (hh : 0 < h) (hw : 0 < w) (hr : r < h) (hc : c < w) :
    lncPure w h rd r c = specNeighborCount ⟨w, h, ⟨rd, X⟩, t⟩ r c := by
  unfold specNeighborCount Universe.cellAt Universe.get_index DoubleBuffered.get
  dsimp only
  rw [eWrap_sub_one h r hh hr, eWrap_add_one h r hh hr, eWrap_id h r hr,
      eWrap_sub_one w c hw hc, eWrap_add_one w c hw hc, eWrap_id w c hc]
  unfold lncPure
  dsimp only
  omega

/-- C1: for every well-formed grid with positive dimensions, `tick` maps each
cell `(row, col)` to the B3/S23 rule applied to the cell's pre-tick value and
its toroidal Moore live-neighbor count in the pre-tick state. -/
theorem c1_tick_b3s23 (u : Universe) (hw : 0 < u.width) (hh : 0 < u.height)
    (hle : u.width * u.height ≤ U32)
    (hlen : u.cells.write.length = u.width * u.height)
    (row col : Nat) (hr : row < u.height) (hc : col < u.width) :
    (u.tick).cellAt row col = lifeRule (u.cellAt row col) (specNeighborCount u row col) := by
  obtain ⟨w, h, ⟨rd, X⟩, t⟩ := u
  dsimp only at hw hh hle hlen hr hc
  rw [tick_eq w h t rd X hle]
  show (writeSeq (gPure w h rd) (h * w) X).getD ((row * w + col) % U32) false =
    lifeRule (rd.getD ((row * w + col) % U32) false)
      (specNeighborCount ⟨w, h, ⟨rd, X⟩, t⟩ row col)
  have hidx : row * w + col < U32 := lt_of_lt_of_le (index_lt w h row col hr hc) hle
  have hjlen : row * w + col < X.length := by
    rw [hlen]; exact index_lt w h row col hr hc
  rw [Nat.mod_eq_of_lt hidx, getD_writeSeq _ _ _ _ hjlen,
    if_pos (by rw [Nat.mul_comm h w]; exact index_lt w h row col hr hc)]
  unfold gPure
  rw [index_div w row col hc, index_mod w row col hc, nextCell_eq_lifeRule,
    lnc_eq_spec w h t rd X row col hh hw hr hc]

end GOL

namespace GOL

/-- The function `tick` never reads `n_ticks`: its result on equal grids differs only in the
carried-over `n_ticks` field. -/
theorem tick_nticks (w h t1 t2 : Nat) (rd X : List Bool) :
    Universe.tick ⟨w, h, ⟨rd, X⟩, t1⟩ =
      { Universe.tick ⟨w, h, ⟨rd, X⟩, t2⟩ with n_ticks := t1 } := by
  unfold Universe.tick
  dsimp only
  rw [tickOuter_eq, tickOuter_eq]

/-- The function `tick` commutes with overwriting `n_ticks`. -/
theorem tick_set_nticks (u : Universe) (t : Nat) :
    Universe.tick { u with n_ticks := t } = { Universe.tick u with n_ticks := t } := by
  obtain ⟨w, h, ⟨rd, X⟩, tk⟩ := u
  exact tick_nticks w h t tk rd X

/-- Iterated `tick` commutes with overwriting `n_ticks`. -/
theorem iterate_tick_set_nticks (k : Nat) (u : Universe) (t : Nat) :
    Universe.tick^[k] { u with n_ticks := t } = { Universe.tick^[k] u with n_ticks := t } := by
  induction k generalizing u with
  | zero => rfl
  | succ m ih =>
    rw [Function.iterate_succ_apply, Function.iterate_succ_apply, tick_set_nticks, ih]

/-- C2: after `set_ticks n`, an `update()` is exactly `n` sequential `tick()`
calls: it equals the `n`-fold iterate of `tick`, and its grid (the cell
buffers) is the grid of `n` ticks applied to the original state. -/
theorem c2_update_is_iterated_tick (u : Universe) (n : Nat) :
    (u.set_ticks n).update = Universe.tick^[n] (u.set_ticks n) ∧
    ((u.set_ticks n).update).cells = (Universe.tick^[n] u).cells := by
  have h1 : (u.set_ticks n).update = Universe.tick^[n] (u.set_ticks n) := by
    show loopN (fun _ v => v.tick) n (u.set_ticks n) = _
    rw [loopN_const]
  refine ⟨h1, ?_⟩
  rw [h1]
  show (Universe.tick^[n] { u with n_ticks := n }).cells = _
  rw [iterate_tick_set_nticks]

/-- C9: with `ticks_per_update` set to 0, `update()` changes nothing: the cell
buffers, the width and the height all keep their current values. -/
theorem c9_update_zero_ticks (u : Universe) :
    ((u.set_ticks 0).update).cells = u.cells ∧
    ((u.set_ticks 0).update).width = u.width ∧
    ((u.set_ticks 0).update).height = u.height :=
  ⟨rfl, rfl, rfl⟩

/-- C7: `tick` is a pure function of the grid state and the dimensions: two
universes with equal width, height and cell buffers (regardless of their
`n_ticks`) tick to equal grids; no randomness is involved (`tick` takes no
random stream at all). -/
theorem c7_tick_deterministic (u v : Universe) (hw : u.width = v.width)
    (hh : u.height = v.height) (hc : u.cells = v.cells) :
    (u.tick).cells = (v.tick).cells ∧ (u.tick).width = (v.tick).width ∧
    (u.tick).height = (v.tick).height := by
  obtain ⟨w1, h1, c1, t1⟩ := u
  obtain ⟨w2, h2, c2, t2⟩ := v
  dsimp only at hw hh hc
  subst hw hh hc
  obtain ⟨rd, X⟩ := c1
  rw [tick_nticks w1 h1 t1 t2 rd X]
  exact ⟨rfl, rfl, rfl⟩

/-- C7 witness: two equal grids carrying different `n_ticks` values. -/
theorem c7_tick_deterministic_witness :
    (u22a.width = (u22a.set_ticks 7).width ∧ u22a.height = (u22a.set_ticks 7).height ∧
      u22a.cells = (u22a.set_ticks 7).cells) ∧
    ((u22a.tick).cells = ((u22a.set_ticks 7).tick).cells ∧
      (u22a.tick).width = ((u22a.set_ticks 7).tick).width ∧
      (u22a.tick).height = ((u22a.set_ticks 7).tick).height) :=
  ⟨⟨rfl, rfl, rfl⟩, c7_tick_deterministic u22a (u22a.set_ticks 7) rfl rfl rfl⟩

/-- Every `tick` ends in a commit, so its buffers agree. -/
theorem tick_synced (u : Universe) : (u.tick).Synced := rfl

/-- Iterating `tick` preserves agreement of the buffers. -/
theorem iterate_tick_synced (k : Nat) (u : Universe) (hu : u.Synced) :
    (Universe.tick^[k] u).Synced := by
  induction k generalizing u with
  | zero => exact hu
  | succ m ih => rw [Function.iterate_succ_apply]; exact ih _ (tick_synced u)

/-- C10: every public operation leaves the two buffers of the double-buffered
store holding equal contents — the constructor establishes the invariant and
each operation preserves it (operations that commit establish it outright). -/
theorem c10_buffers_agree (u : Universe) (hu : u.Synced) (w h n row col : Nat)
    (r : Nat → Bool) (cs : List (Nat × Nat)) :
    (Universe.new w h r).Synced ∧ (u.reset r).Synced ∧ u.clear.Synced ∧
    (u.set_width w r).Synced ∧ (u.set_height h r).Synced ∧ u.tick.Synced ∧
    u.update.Synced ∧ (u.set_ticks n).Synced ∧ (u.toggle_cell row col).Synced ∧
    (u.create_glider row col).Synced ∧ (u.create_pulsar row col).Synced ∧
    (u.set_cells cs).Synced := by
  refine ⟨rfl, rfl, rfl, rfl, rfl, rfl, ?_, hu, rfl, rfl, rfl, rfl⟩
  show (loopN (fun _ v => v.tick) u.n_ticks u).Synced
  rw [loopN_const]
  exact iterate_tick_synced u.n_ticks u hu

/-- C10 witness: the invariant discharged on a concrete synchronized universe. -/
theorem c10_buffers_agree_witness :
    u22.Synced ∧
    ((Universe.new 1 1 rF).Synced ∧ (u22.reset rF).Synced ∧ u22.clear.Synced ∧
      (u22.set_width 1 rF).Synced ∧ (u22.set_height 1 rF).Synced ∧ u22.tick.Synced ∧
      u22.update.Synced ∧ (u22.set_ticks 1).Synced ∧ (u22.toggle_cell 0 0).Synced ∧
      (u22.create_glider 0 0).Synced ∧ (u22.create_pulsar 0 0).Synced ∧
      (u22.set_cells []).Synced) :=
  ⟨rfl, c10_buffers_agree u22 rfl 1 1 1 0 0 rF []⟩

/-- C1 witness: the blinker universe, checked at cell `(0, 1)`. -/
theorem c1_tick_b3s23_witness :
    (0 < u33b.width ∧ 0 < u33b.height ∧ u33b.width * u33b.height ≤ U32 ∧
      u33b.cells.write.length = u33b.width * u33b.height ∧ 0 < u33b.height ∧ 1 < u33b.width) ∧
    (u33b.tick).cellAt 0 1 = lifeRule (u33b.cellAt 0 1) (specNeighborCount u33b 0 1) :=
  ⟨by decide,
    c1_tick_b3s23 u33b (by decide) (by decide) (by decide) (by decide) 0 1 (by decide)
      (by decide)⟩

end GOL

namespace GOL

/-- C6: `toggle_cell(row, col)` flips exactly the targeted cell, leaves every
other cell unchanged, and applying it twice restores the entire original
state. -/
theorem c6_toggle_involutive (u : Universe) (hsync : u.Synced)
    (hlen : u.cells.write.length = u.width * u.height)
    (hle : u.width * u.height ≤ U32)
    (row col : Nat) (hr : row < u.height) (hc : col < u.width)
    (row' col' : Nat) (hr' : row' < u.height) (hc' : col' < u.width)
    (hne : (row', col') ≠ (row, col)) :
    (u.toggle_cell row col).cellAt row col = !(u.cellAt row col) ∧
    (u.toggle_cell row col).cellAt row' col' = u.cellAt row' col' ∧
    (u.toggle_cell row col).toggle_cell row col = u := by
  obtain ⟨w, h, ⟨rd, X⟩, t⟩ := u
  unfold Universe.Synced at hsync
  dsimp only at hsync hlen hle hr hc hr' hc'
  subst hsync
  have hidx : row * w + col < U32 := lt_of_lt_of_le (index_lt w h row col hr hc) hle
  have hidx' : row' * w + col' < U32 := lt_of_lt_of_le (index_lt w h row' col' hr' hc') hle
  have hjlen : row * w + col < rd.length := by rw [hlen]; exact index_lt w h row col hr hc
  have hdiff : row * w + col ≠ row' * w + col' := by
    intro he
    exact hne (by
      obtain ⟨h1, h2⟩ := (index_inj w row col row' col' hc hc').mp he
      simp [h1, h2])
  refine ⟨?_, ?_, ?_⟩
  · show ((rd.set ((row * w + col) % U32)
        (!(rd.getD ((row * w + col) % U32) false))).getD ((row * w + col) % U32) false) =
      !(rd.getD ((row * w + col) % U32) false)
    rw [Nat.mod_eq_of_lt hidx, getD_set_self _ _ _ _ hjlen]
  · show ((rd.set ((row * w + col) % U32)
        (!(rd.getD ((row * w + col) % U32) false))).getD ((row' * w + col') % U32) false) =
      rd.getD ((row' * w + col') % U32) false
    rw [Nat.mod_eq_of_lt hidx, Nat.mod_eq_of_lt hidx', getD_set_ne _ _ _ _ _ hdiff]
  · show (⟨w, h,
        ⟨rd.set ((row * w + col) % U32) (!(rd.getD ((row * w + col) % U32) false)),
          rd.set ((row * w + col) % U32)
            (!(rd.getD ((row * w + col) % U32) false))⟩, t⟩ : Universe).toggle_cell row col =
      ⟨w, h, ⟨rd, rd⟩, t⟩
    unfold Universe.toggle_cell DoubleBuffered.toggle DoubleBuffered.update
    dsimp only
    rw [Nat.mod_eq_of_lt hidx]
    have hset : (rd.set (row * w + col) (!(rd.getD (row * w + col) false))).getD
        (row * w + col) false = !(rd.getD (row * w + col) false) :=
      getD_set_self _ _ _ _ hjlen
    rw [Universe.get_index]
    dsimp only
    rw [Nat.mod_eq_of_lt hidx, hset, List.set_set, Bool.not_not, set_getD_self]

end GOL

namespace GOL

/-- The `create_figure` loop threads only the write buffer (the target indices
depend on the loop counter alone). -/
theorem figInner_eq (rd : List Bool) (K : Nat → Nat) (n : Nat) (X : List Bool) :
    loopN (fun i db => DoubleBuffered.insert db (K i)) n ⟨rd, X⟩ =
      ⟨rd, loopN (fun i Y => Y.set (K i) true) n X⟩ := by
  induction n with
  | zero => rfl
  | succ m ih =>
    simp only [loopN]
    rw [ih]
    rfl

theorem length_insertChain (K : Nat → Nat) (n : Nat) (X : List Bool) :
    (loopN (fun i Y => Y.set (K i) true) n X).length = X.length := by
  induction n with
  | zero => rfl
  | succ m ih =>
    simp only [loopN]
    rw [List.length_set, ih]

/-- A chain of in-range `insert`s turns a bit on exactly when some iteration
targets it, and never turns a bit off. -/
theorem getD_insertChain (K : Nat → Nat) (n : Nat) (X : List Bool) (j : Nat)
    (hK : ∀ i, i < n → K i < X.length) :
    (loopN (fun i Y => Y.set (K i) true) n X).getD j false =
      (X.getD j false || decide (∃ i, i < n ∧ K i = j)) := by
  induction n with
  | zero =>
    rw [show loopN (fun i Y => Y.set (K i) true) 0 X = X from rfl]
    have hnone : ¬∃ i, i < 0 ∧ K i = j := by
      rintro ⟨i, hi, h2⟩
      omega
    rw [decide_eq_false hnone, Bool.or_false]
  | succ m ih =>
    simp only [loopN]
    rw [getD_set_true _ _ _ (by rw [length_insertChain]; exact hK m (by omega)),
      ih (fun i hi => hK i (by omega))]
    by_cases hc : ∃ i, i < m ∧ K i = j
    · have hall : ∃ i, i < m + 1 ∧ K i = j := by
        obtain ⟨i, hi, hKi⟩ := hc
        exact ⟨i, by omega, hKi⟩
      rw [decide_eq_true hc, decide_eq_true hall]
      simp
    · by_cases hj : j = K m
      · have hall : ∃ i, i < m + 1 ∧ K i = j := ⟨m, by omega, hj.symm⟩
        rw [decide_eq_true hj, decide_eq_true hall]
        simp
      · have hnone : ¬∃ i, i < m + 1 ∧ K i = j := by
          rintro ⟨i, hi, hKi⟩
          by_cases him : i = m
          · subst him
            exact hj hKi.symm
          · exact hc ⟨i, by omega, hKi⟩
        rw [decide_eq_false hc, decide_eq_false hj, decide_eq_false hnone]
        simp

/-- Bounded existentials over the five glider offsets, unrolled. -/
theorem exists_lt_five (P : Nat → Prop) :
    (∃ i, i < 5 ∧ P i) ↔ P 0 ∨ P 1 ∨ P 2 ∨ P 3 ∨ P 4 := by
  constructor
  · rintro ⟨i, hi, hp⟩
    interval_cases i <;> tauto
  · rintro (h | h | h | h | h)
    exacts [⟨0, by omega, h⟩, ⟨1, by omega, h⟩, ⟨2, by omega, h⟩, ⟨3, by omega, h⟩,
      ⟨4, by omega, h⟩]

end GOL

namespace GOL

/-- C5: `create_glider(row, col)` sets exactly the five glider-offset cells
alive — at the anchor-relative positions wrapped with Euclidean modulo — never
clears a cell, and leaves every other cell unchanged. -/
theorem c5_glider_stamp (u : Universe) (hsync : u.Synced)
    (hlen : u.cells.write.length = u.width * u.height)
    (hle : u.width * u.height ≤ U32)
    (hwI : u.width < I31) (hhI : u.height < I31)
    (row col : Nat) (hrI : row < I31) (hcI : col < I31)
    (row' col' : Nat) (hr' : row' < u.height) (hc' : col' < u.width) :
    (u.create_glider row col).cellAt row' col' =
      (u.cellAt row' col' || decide ((row', col') ∈ gliderCells u row col)) := by
  obtain ⟨w, h, ⟨rd, X⟩, t⟩ := u
  unfold Universe.Synced at hsync
  dsimp only at hsync hlen hle hwI hhI hr' hc'
  subst hsync
  have hh0 : 0 < h := by omega
  have hw0 : 0 < w := by omega
  have hKspec : ∀ d e : Int,
      (((toI32 row + d) % toI32 h).toNat * w + ((toI32 col + e) % toI32 w).toNat) % U32
        = eWrap h ((row : Int) + d) * w + eWrap w ((col : Int) + e) ∧
      eWrap h ((row : Int) + d) * w + eWrap w ((col : Int) + e) < w * h := by
    intro d e
    rw [toI32_of_lt row hrI, toI32_of_lt col hcI, toI32_of_lt h hhI, toI32_of_lt w hwI]
    have ha : eWrap h ((row : Int) + d) < h := eWrap_lt h _ hh0
    have hb : eWrap w ((col : Int) + e) < w := eWrap_lt w _ hw0
    have hlt : eWrap h ((row : Int) + d) * w + eWrap w ((col : Int) + e) < w * h :=
      index_lt w h _ _ ha hb
    refine ⟨?_, hlt⟩
    show (eWrap h ((row : Int) + d) * w + eWrap w ((col : Int) + e)) % U32 = _
    exact Nat.mod_eq_of_lt (lt_of_lt_of_le hlt hle)
  have hfig : Universe.create_glider ⟨w, h, ⟨rd, rd⟩, t⟩ row col =
      ⟨w, h, (loopN (fun i db => DoubleBuffered.insert db
        ((((toI32 row + GLIDER.getD (i * 2) 0) % toI32 h).toNat * w +
          ((toI32 col + GLIDER.getD (i * 2 + 1) 0) % toI32 w).toNat) % U32)) 5
          ⟨rd, rd⟩).update, t⟩ := rfl
  have hidx' : row' * w + col' < U32 :=
    lt_of_lt_of_le (index_lt w h row' col' hr' hc') hle
  have hKlen : ∀ i, i < 5 →
      (((toI32 row + GLIDER.getD (i * 2) 0) % toI32 h).toNat * w +
        ((toI32 col + GLIDER.getD (i * 2 + 1) 0) % toI32 w).toNat) % U32 < rd.length := by
    intro i _
    have hsp := hKspec (GLIDER.getD (i * 2) 0) (GLIDER.getD (i * 2 + 1) 0)
    rw [hsp.1, hlen]
    exact hsp.2
  rw [hfig, figInner_eq]
  show (loopN (fun i Y => Y.set
      ((((toI32 row + GLIDER.getD (i * 2) 0) % toI32 h).toNat * w +
        ((toI32 col + GLIDER.getD (i * 2 + 1) 0) % toI32 w).toNat) % U32) true) 5 rd).getD
      ((row' * w + col') % U32) false =
    (rd.getD ((row' * w + col') % U32) false ||
      decide ((row', col') ∈ gliderCells ⟨w, h, ⟨rd, rd⟩, t⟩ row col))
  rw [Nat.mod_eq_of_lt hidx', getD_insertChain _ 5 rd (row' * w + col') hKlen]
  have hpair : ∀ a b : Nat, a < h → b < w →
      ((a * w + b = row' * w + col') ↔ ((row', col') = (a, b))) := by
    intro a b ha hb
    rw [index_inj w a b row' col' hb hc', Prod.mk.injEq]
    constructor
    · rintro ⟨h1, h2⟩
      exact ⟨h1.symm, h2.symm⟩
    · rintro ⟨h1, h2⟩
      exact ⟨h1.symm, h2.symm⟩
  have hiff : (∃ i, i < 5 ∧
      (((toI32 row + GLIDER.getD (i * 2) 0) % toI32 h).toNat * w +
        ((toI32 col + GLIDER.getD (i * 2 + 1) 0) % toI32 w).toNat) % U32 = row' * w + col') ↔
      ((row', col') ∈ gliderCells ⟨w, h, ⟨rd, rd⟩, t⟩ row col) := by
    rw [exists_lt_five]
    have g0 : GLIDER.getD (0 * 2) 0 = (0 : Int) := by decide
    have g1 : GLIDER.getD (0 * 2 + 1) 0 = (-2 : Int) := by decide
    have g2 : GLIDER.getD (1 * 2) 0 = (0 : Int) := by decide
    have g3 : GLIDER.getD (1 * 2 + 1) 0 = (-1 : Int) := by decide
    have g4 : GLIDER.getD (2 * 2) 0 = (0 : Int) := by decide
    have g5 : GLIDER.getD (2 * 2 + 1) 0 = (0 : Int) := by decide
    have g6 : GLIDER.getD (3 * 2) 0 = (-1 : Int) := by decide
    have g7 : GLIDER.getD (3 * 2 + 1) 0 = (0 : Int) := by decide
    have g8 : GLIDER.getD (4 * 2) 0 = (-2 : Int) := by decide
    have g9 : GLIDER.getD (4 * 2 + 1) 0 = (-1 : Int) := by decide
    rw [g0, g1, g2, g3, g4, g5, g6, g7, g8, g9,
      (hKspec 0 (-2)).1, (hKspec 0 (-1)).1, (hKspec 0 0).1, (hKspec (-1) 0).1,
      (hKspec (-2) (-1)).1]
    rw [hpair _ _ (eWrap_lt h _ hh0) (eWrap_lt w _ hw0),
      hpair _ _ (eWrap_lt h _ hh0) (eWrap_lt w _ hw0),
      hpair _ _ (eWrap_lt h _ hh0) (eWrap_lt w _ hw0),
      hpair _ _ (eWrap_lt h _ hh0) (eWrap_lt w _ hw0),
      hpair _ _ (eWrap_lt h _ hh0) (eWrap_lt w _ hw0)]
    rw [show ((row : Int) + 0) = (row : Int) from by ring,
      show ((col : Int) + 0) = (col : Int) from by ring,
      show ((row : Int) + (-1)) = (row : Int) - 1 from by ring,
      show ((col : Int) + (-1)) = (col : Int) - 1 from by ring,
      show ((row : Int) + (-2)) = (row : Int) - 2 from by ring,
      show ((col : Int) + (-2)) = (col : Int) - 2 from by ring]
    simp only [gliderCells, List.mem_cons, List.mem_singleton, List.not_mem_nil, or_false]
  rw [decide_eq_decide.mpr hiff]

end GOL

namespace GOL

/-- C5 witness: stamping a glider at `(1, 1)` on a dead 3×3 torus, checked at
the wrapped target cell `(1, 2)`. -/
theorem c5_glider_stamp_witness :
    (u33.Synced ∧ u33.cells.write.length = u33.width * u33.height ∧
      u33.width * u33.height ≤ U32 ∧ u33.width < I31 ∧ u33.height < I31 ∧
      1 < I31 ∧ 1 < u33.height ∧ 2 < u33.width) ∧
    (u33.create_glider 1 1).cellAt 1 2 =
      (u33.cellAt 1 2 || decide ((1, 2) ∈ gliderCells u33 1 1)) :=
  ⟨⟨rfl, by decide, by decide, by decide, by decide, by decide, by decide, by decide⟩,
    c5_glider_stamp u33 rfl (by decide) (by decide) (by decide) (by decide) 1 1 (by decide)
      (by decide) 1 2 (by decide) (by decide)⟩

/-- C6 witness: toggling `(1, 1)` on a concrete 2×2 universe, with `(0, 0)` as
the untouched observer cell. -/
theorem c6_toggle_involutive_witness :
    (u22a.Synced ∧ u22a.cells.write.length = u22a.width * u22a.height ∧
      u22a.width * u22a.height ≤ U32 ∧ 1 < u22a.height ∧ 1 < u22a.width ∧
      ((0, 0) : Nat × Nat) ≠ (1, 1)) ∧
    ((u22a.toggle_cell 1 1).cellAt 1 1 = !(u22a.cellAt 1 1) ∧
      (u22a.toggle_cell 1 1).cellAt 0 0 = u22a.cellAt 0 0 ∧
      (u22a.toggle_cell 1 1).toggle_cell 1 1 = u22a) :=
  ⟨⟨rfl, by decide, by decide, by decide, by decide, by decide⟩,
    c6_toggle_involutive u22a rfl (by decide) (by decide) 1 1 (by decide) (by decide) 0 0
      (by decide) (by decide) (by decide)⟩

/-- C3: the resize policy is broken in the code.  `set_width` updates
`self.width` before calling `reset_with_size`, whose `curr_size = self.size()`
therefore always equals `new_size`: the `Greater`/`Less` branches are dead and
the buffers are never resized.  Growing a 2×2 universe to width 3 keeps the
4-bit buffers while `size()` becomes 6, so the claimed "full random reset of
every cell" is impossible: in Rust the `reset` loop calls
`FixedBitSet::set(4, _)` on a 4-bit set and aborts (`set_width_oob` holds); in
this total model the out-of-range writes are dropped, cell `(1, 2)` stays dead
although its random draw is alive, and only 4 of the 6 claimed cells exist. -/
theorem c3_resize_reset_bug :
    (u22.set_width 3 rT).size = 6 ∧
    u22.set_width_oob 3 ∧
    (u22.set_width 3 rT).cells.read.length = 4 ∧
    (u22.set_width 3 rT).cellAt 1 2 = false ∧
    rT ((u22.set_width 3 rT).get_index 1 2) = true := by
  refine ⟨by decide, ?_, by decide, by decide, by decide⟩
  show ({ u22 with width := 3 } : Universe).cells.write.length
    < ({ u22 with width := 3 } : Universe).size
  decide

/-- C4: the invariant `cells.length == width * height` is not preserved by
`set_width`/`set_height`.  On a 2×2 universe (where the invariant holds),
`set_width(1)` makes `width * height = 2` but the never-resized buffers keep
length 4 — the `Less` branch of `reset_with_size` that would have installed a
fresh 2-bit set is dead code (the comparison happens after the width update). -/
theorem c4_length_invariant_bug :
    u22a.cells.read.length = u22a.width * u22a.height ∧
    u22a.cells.write.length = u22a.width * u22a.height ∧
    (u22a.set_width 1 rT).width * (u22a.set_width 1 rT).height = 2 ∧
    (u22a.set_width 1 rT).cells.read.length = 4 ∧
    (u22a.set_width 1 rT).cells.read.length ≠
      (u22a.set_width 1 rT).width * (u22a.set_width 1 rT).height := by
  decide

/-- C8 counterexample: the default constructor does not build a 64×64 universe. -/
theorem c8_default_not_64 :
    ¬ ((Universe.default rF).width = 64 ∧ (Universe.default rF).height = 64) := by
  intro hcontra
  have h1 : (Universe.default rF).width = 100 := rfl
  omega

/-- C8 (amended): the default constructor is exactly `new(100, 100)` — the
fixed size is 100×100, with the same randomization step as `new`. -/
theorem c8_default_is_new_100 (r : Nat → Bool) :
    Universe.default r = Universe.new 100 100 r ∧ (Universe.default r).width = 100 ∧
    (Universe.default r).height = 100 :=
  ⟨rfl, rfl, rfl⟩

end GOL
